import Mathlib

/-!
Verification of `promptolution/predictors/maker_based_predictor.py`
(`MarkerBasedPredictor`): marker-delimited substring extraction, case
normalization, and class-membership fallback, as a shallow embedding in Lean.
-/

set_option autoImplicit false

namespace Promptolution

/-- Model of Python `str.lower()`: lowercase every character. -/
def pyLower (s : String) : String := ⟨s.data.map Char.toLower⟩

/-- A character is cased when it is an uppercase or a lowercase letter
(model of Python's notion of cased character). -/
def isCased (c : Char) : Bool := c.isUpper || c.isLower

/-- Model of Python `str.islower()`: true when the string has at least one
cased character and every cased character is lowercase. -/
def pyIslower (s : String) : Bool :=
  s.data.any isCased && s.data.all (fun c => !(isCased c) || c.isLower)

/-- First index at which the pattern `pat` occurs in the character list,
`none` when it does not occur. -/
def findSub (pat : List Char) : List Char → Option Nat
  | [] => if pat.isPrefixOf ([] : List Char) then some 0 else none
  | c :: t =>
    if pat.isPrefixOf (c :: t) then some 0
    else (findSub pat t).map (· + 1)

/-- Modelled from the spec: `extract_from_tag` (from
`promptolution.utils.formatting`) is not under `src/`; per the spec's
required contract it returns the text strictly between the first occurrence
of `begin_marker` and the first subsequent occurrence of `end_marker`, and
the empty string when either marker is absent. -/
def extract_from_tag (text begin_marker end_marker : String) : String :=
  match findSub begin_marker.data text.data with
  | none => ""
  | some i =>
    let rest := text.data.drop (i + begin_marker.data.length)
    match findSub end_marker.data rest with
    | none => ""
    | some j => ⟨rest.take j⟩

/-- The state of a `MarkerBasedPredictor` after construction: the fields set
by `__init__` (the `llm` and `config` collaborators are out of scope). -/
structure MarkerBasedPredictor where
  classes : Option (List String)
  begin_marker : String
  end_marker : String
  extraction_description : String
deriving Repr, DecidableEq

/-- The description string derived in the `classes is not None` branch of
`__init__`. -/
def closedDescription (classes : List String) (begin_marker end_marker : String) : String :=
  "The task is to classify the texts into one of those classes: "
    ++ String.intercalate ", " classes ++ "."
    ++ "The class label is extracted from the text that are between these markers: "
    ++ begin_marker ++ " and " ++ end_marker ++ "."

/-- The description string derived in the `classes is None` branch of
`__init__`. -/
def openDescription (begin_marker end_marker : String) : String :=
  "The class label is extracted from the text that are between these markers: "
    ++ begin_marker ++ " and " ++ end_marker ++ "."

/-- Model of `MarkerBasedPredictor.__init__`: stores the fields, and when a
class list is given asserts `all([c.islower() for c in classes])`; a failed
assertion surfaces as `Except.error` (Python `AssertionError`). -/
def init (classes : Option (List String)) (begin_marker end_marker : String) :
    Except String MarkerBasedPredictor :=
  match classes with
  | some cs =>
    if cs.all pyIslower then
      Except.ok
        { classes := some cs
          begin_marker := begin_marker
          end_marker := end_marker
          extraction_description := closedDescription cs begin_marker end_marker }
    else Except.error "Class labels should be lowercase."
  | none =>
    Except.ok
      { classes := none
        begin_marker := begin_marker
        end_marker := end_marker
        extraction_description := openDescription begin_marker end_marker }

/-- The body of the `for pred in preds` loop of `_extract_preds` for one raw
output: extract between the markers, lowercase, and when a class list is
configured replace a non-member with `self.classes[0]`; the Python index
access `classes[0]` can raise `IndexError`, modelled by `Option` (`List.get?`). -/
def extractOne (p : MarkerBasedPredictor) (pred : String) : Option String :=
  let v := pyLower (extract_from_tag pred p.begin_marker p.end_marker)
  match p.classes with
  | some cs => if v ∈ cs then some v else cs.get? 0
  | none => some v

/-- Model of `MarkerBasedPredictor._extract_preds`: run the loop body on each
raw output in order, collecting the appended results; an `IndexError` inside
the loop aborts the whole call (`none`). -/
def _extract_preds (p : MarkerBasedPredictor) (preds : List String) :
    Option (List String) :=
  preds.mapM (extractOne p)

/-- The normalization step of the loop body in isolation (`.lower()` already
applied upstream is taken as the lowercasing of the argument): lowercase,
then class-membership fallback to `classes[0]`. -/
def normalizeLabel (cs : List String) (s : String) : Option String :=
  let v := pyLower s
  if v ∈ cs then some v else cs.get? 0

/-- The mutable state visible to the body of `_extract_preds`: the `self`
fields plus the local `result` accumulator of the loop. -/
structure MethodState where
  classes : Option (List String)
  begin_marker : String
  end_marker : String
  extraction_description : String
  result : List String
deriving Repr, DecidableEq

/-- The predictor component of a method state. -/
def stPred (st : MethodState) : MarkerBasedPredictor :=
  { classes := st.classes
    begin_marker := st.begin_marker
    end_marker := st.end_marker
    extraction_description := st.extraction_description }

/-- One iteration of the `for pred in preds` loop acting on the full state:
the source assigns only the locals `pred` and `result`, never a `self`
field, and the `classes[0]` access can raise. -/
def loopStep (st : MethodState) (pred : String) : Option MethodState :=
  let v := pyLower (extract_from_tag pred st.begin_marker st.end_marker)
  match st.classes with
  | some cs =>
    if v ∈ cs then some { st with result := st.result ++ [v] }
    else (cs.get? 0).map fun c0 => { st with result := st.result ++ [c0] }
  | none => some { st with result := st.result ++ [v] }

/-- The state on entry to the loop: `self` as constructed, `result = []`. -/
def initialState (p : MarkerBasedPredictor) : MethodState :=
  { classes := p.classes
    begin_marker := p.begin_marker
    end_marker := p.end_marker
    extraction_description := p.extraction_description
    result := [] }

/-- `_extract_preds` as a state transformer: fold the loop body over the raw
outputs from the entry state. -/
def runBody (p : MarkerBasedPredictor) (preds : List String) : Option MethodState :=
  preds.foldlM loopStep (initialState p)

/-- A concrete closed-mode predictor (the state `init` builds for
`classes=["negative", "positive"]` with the default markers). -/
def pClosed : MarkerBasedPredictor :=
  { classes := some ["negative", "positive"]
    begin_marker := "<final_answer>"
    end_marker := "</final_answer>"
    extraction_description :=
      closedDescription ["negative", "positive"] "<final_answer>" "</final_answer>" }

/-- The method state after running `_extract_preds` of `pClosed` on the
single raw output `"garbage"`. -/
def stClosedGarbage : MethodState :=
  { classes := some ["negative", "positive"]
    begin_marker := "<final_answer>"
    end_marker := "</final_answer>"
    extraction_description :=
      closedDescription ["negative", "positive"] "<final_answer>" "</final_answer>"
    result := ["negative"] }

/-! ### Helper lemmas -/

/-- An ASCII uppercase letter is not an ASCII lowercase letter. -/
theorem upper_not_lower (c : Char) (h : c.isUpper = true) : c.isLower = false := by
  simp [Char.isUpper, Char.isLower] at h ⊢
  intro hge
  exact absurd (UInt32.le_trans hge h.2) (by decide)

/-- A string containing an uppercase character is not `islower`. -/
theorem pyIslower_eq_false_of_upper (s : String) (c : Char) (hc : c ∈ s.data)
    (hu : c.isUpper = true) : pyIslower s = false := by
  unfold pyIslower
  cases hall : s.data.all fun ch => !(isCased ch) || ch.isLower with
  | false => simp [hall]
  | true =>
    exfalso
    have hmem := List.all_eq_true.mp hall c hc
    rw [upper_not_lower c hu] at hmem
    simp [isCased, hu] at hmem

/-- A string with no cased character at all is not `islower` (Python
`str.islower` requires at least one cased character). -/
theorem pyIslower_eq_false_of_uncased (s : String)
    (h : ∀ c ∈ s.data, isCased c = false) : pyIslower s = false := by
  unfold pyIslower
  have hany : s.data.any isCased = false := by
    cases hca : s.data.any isCased with
    | false => rfl
    | true =>
      obtain ⟨c, hc, hcc⟩ := List.any_eq_true.mp hca
      rw [h c hc] at hcc
      cases hcc
  simp [hany]

/-- If some configured class fails the `islower` check, `__init__` raises the
assertion error. -/
theorem init_error_of_not_islower (cs : List String) (bm em : String) (c : String)
    (hc : c ∈ cs) (h : pyIslower c = false) :
    init (some cs) bm em = Except.error "Class labels should be lowercase." := by
  unfold init
  have hall : cs.all pyIslower = false := by
    cases hca : cs.all pyIslower with
    | false => rfl
    | true =>
      have := List.all_eq_true.mp hca c hc
      rw [h] at this
      cases this
  simp [hall]

/-- Fields of a successfully constructed predictor. -/
theorem init_ok_fields (classes : Option (List String)) (bm em : String)
    (p : MarkerBasedPredictor) (h : init classes bm em = Except.ok p) :
    p.classes = classes ∧ p.begin_marker = bm ∧ p.end_marker = em := by
  cases classes with
  | none =>
    simp only [init] at h
    injection h with h
    subst h
    exact ⟨rfl, rfl, rfl⟩
  | some cs =>
    simp only [init] at h
    split at h
    · injection h with h
      subst h
      exact ⟨rfl, rfl, rfl⟩
    · cases h

/-- Decomposition of `List.mapM` over `Option` at a cons cell. -/
theorem mapM_option_cons {α β : Type} (f : α → Option β) (a : α) (t : List α)
    (r : List β) (h : (a :: t).mapM f = some r) :
    ∃ b bs, f a = some b ∧ t.mapM f = some bs ∧ r = b :: bs := by
  rw [List.mapM_cons] at h
  obtain ⟨b, hb, h2⟩ := Option.bind_eq_some.mp h
  obtain ⟨bs, hbs, h3⟩ := Option.bind_eq_some.mp h2
  injection h3 with h3
  exact ⟨b, bs, hb, hbs, h3.symm⟩

/-- `List.mapM` over `Option` on the empty list. -/
theorem mapM_option_nil {α β : Type} (f : α → Option β) (r : List β)
    (h : ([] : List α).mapM f = some r) : r = [] := by
  rw [List.mapM_nil] at h
  injection h with h
  exact h.symm

/-- When every element maps to `some`, `mapM` is a plain `map`. -/
theorem mapM_option_eq_map {α β : Type} (f : α → Option β) (g : α → β)
    (l : List α) (h : ∀ a ∈ l, f a = some (g a)) :
    l.mapM f = some (l.map g) := by
  induction l with
  | nil => rfl
  | cons a t ih =>
    rw [List.mapM_cons, h a (List.mem_cons_self a t),
      ih fun x hx => h x (List.mem_cons_of_mem a hx)]
    rfl

/-- A successful `mapM` over `Option` preserves length and acts pointwise. -/
theorem mapM_option_some_spec {α β : Type} (f : α → Option β) :
    ∀ (l : List α) (r : List β), l.mapM f = some r →
      r.length = l.length ∧
      ∀ (i : Nat) (hi : i < l.length) (hr : i < r.length),
        f (l.get ⟨i, hi⟩) = some (r.get ⟨i, hr⟩) := by
  intro l
  induction l with
  | nil =>
    intro r h
    have hr := mapM_option_nil f r h
    subst hr
    exact ⟨rfl, fun i hi => absurd hi (Nat.not_lt_zero i)⟩
  | cons a t ih =>
    intro r h
    obtain ⟨b, bs, hb, hbs, hr⟩ := mapM_option_cons f a t r h
    subst hr
    obtain ⟨hlen, hget⟩ := ih bs hbs
    refine ⟨by simp [hlen], ?_⟩
    intro i hi hr
    cases i with
    | zero => simpa using hb
    | succ j =>
      have hj : j < t.length := Nat.lt_of_succ_lt_succ hi
      have hjr : j < bs.length := Nat.lt_of_succ_lt_succ hr
      simpa using hget j hj hjr

/-- Every value produced by a successful `mapM` over `Option` comes from some
input element. -/
theorem mapM_option_mem {α β : Type} (f : α → Option β) :
    ∀ (l : List α) (r : List β), l.mapM f = some r →
      ∀ b ∈ r, ∃ a ∈ l, f a = some b := by
  intro l
  induction l with
  | nil =>
    intro r h b hb
    have hr := mapM_option_nil f r h
    subst hr
    cases hb
  | cons x t ih =>
    intro r h b hb
    obtain ⟨y, bs, hy, hbs, hr⟩ := mapM_option_cons f x t r h
    subst hr
    cases hb with
    | head => exact ⟨x, List.mem_cons_self x t, hy⟩
    | tail _ hmem =>
      obtain ⟨a, ha, hfa⟩ := ih bs hbs b hmem
      exact ⟨a, List.mem_cons_of_mem x ha, hfa⟩

/-- When every element maps to `some`, `mapM` over `Option` succeeds. -/
theorem mapM_option_isSome {α β : Type} (f : α → Option β)
    (l : List α) (h : ∀ a ∈ l, (f a).isSome) : (l.mapM f).isSome := by
  induction l with
  | nil => rfl
  | cons a t ih =>
    obtain ⟨b, hb⟩ := Option.isSome_iff_exists.mp (h a (List.mem_cons_self a t))
    obtain ⟨bs, hbs⟩ := Option.isSome_iff_exists.mp
      (ih fun x hx => h x (List.mem_cons_of_mem a hx))
    rw [List.mapM_cons, hb, hbs]
    rfl

/-- Closed mode: the loop body yields the lowercased extraction when it is a
configured class, and the first configured class otherwise. -/
theorem extractOne_closed (p : MarkerBasedPredictor) (c0 : String)
    (rest : List String) (hc : p.classes = some (c0 :: rest)) (s : String) :
    extractOne p s =
      some (if pyLower (extract_from_tag s p.begin_marker p.end_marker) ∈ c0 :: rest
        then pyLower (extract_from_tag s p.begin_marker p.end_marker) else c0) := by
  unfold extractOne
  rw [hc]
  by_cases hv : pyLower (extract_from_tag s p.begin_marker p.end_marker) ∈ c0 :: rest
  · simp [hv]
  · simp [hv]

/-- Open mode: the loop body yields the lowercased extraction unchanged. -/
theorem extractOne_open (p : MarkerBasedPredictor) (hc : p.classes = none)
    (s : String) :
    extractOne p s = some (pyLower (extract_from_tag s p.begin_marker p.end_marker)) := by
  unfold extractOne
  rw [hc]

/-- The loop body succeeds whenever the class list is absent or non-empty. -/
theorem extractOne_isSome (p : MarkerBasedPredictor)
    (h : p.classes = none ∨ ∃ c0 rest, p.classes = some (c0 :: rest))
    (s : String) : (extractOne p s).isSome := by
  cases h with
  | inl hc =>
    rw [extractOne_open p hc s]
    rfl
  | inr hc =>
    obtain ⟨c0, rest, hc⟩ := hc
    rw [extractOne_closed p c0 rest hc s]
    rfl

/-- The loop body is the pure per-item function mapped into the state: only
`result` changes. -/
theorem loopStep_eq (st : MethodState) (pred : String) :
    loopStep st pred = (extractOne (stPred st) pred).map
      fun v => { st with result := st.result ++ [v] } := by
  unfold loopStep extractOne stPred
  cases hc : st.classes with
  | none => simp
  | some cs =>
    by_cases hv : pyLower (extract_from_tag pred st.begin_marker st.end_marker) ∈ cs
    · simp [hv]
    · simp [hv]

/-- One loop iteration never touches the `self` fields: it appends what the
per-item function produces to `result` and changes nothing else. -/
theorem loopStep_spec (st : MethodState) (pred : String) (st2 : MethodState)
    (h : loopStep st pred = some st2) :
    ∃ v, extractOne (stPred st) pred = some v ∧
      st2 = { st with result := st.result ++ [v] } := by
  rw [loopStep_eq] at h
  obtain ⟨v, hv, h2⟩ := Option.map_eq_some'.mp h
  exact ⟨v, hv, h2.symm⟩

/-- Folding the loop body preserves the `self` fields and accumulates
exactly the labels of the pure per-item function, in order. -/
theorem foldlM_loopStep_spec :
    ∀ (preds : List String) (st0 st : MethodState),
      preds.foldlM loopStep st0 = some st →
      stPred st = stPred st0 ∧
      ∃ tail, st.result = st0.result ++ tail ∧
        _extract_preds (stPred st0) preds = some tail := by
  intro preds
  induction preds with
  | nil =>
    intro st0 st h
    rw [List.foldlM_nil] at h
    injection h with h
    subst h
    exact ⟨rfl, [], by simp, rfl⟩
  | cons a t ih =>
    intro st0 st h
    rw [List.foldlM_cons] at h
    obtain ⟨st1, h1, h2⟩ := Option.bind_eq_some.mp h
    obtain ⟨v, hv, hst1⟩ := loopStep_spec st0 a st1 h1
    obtain ⟨hfr, tail, hres, hmap⟩ := ih st1 st h2
    subst hst1
    have hsp : stPred { st0 with result := st0.result ++ [v] } = stPred st0 := rfl
    rw [hsp] at hfr hmap
    refine ⟨hfr, v :: tail, ?_, ?_⟩
    · rw [hres]
      simp
    · unfold _extract_preds at hmap ⊢
      rw [List.mapM_cons, hv, hmap]
      rfl

/-! ### Claims -/

/-- C1: for every raw output in the batch, with a configured class set the
output label is the marker-extracted substring lowercased when that value is
a member of the class set and the first class otherwise; with no class set
the output is the lowercased extracted substring unchanged. -/
theorem C1_per_item_output (p : MarkerBasedPredictor) (preds : List String) :
    (∀ (c0 : String) (rest : List String), p.classes = some (c0 :: rest) →
      _extract_preds p preds = some (preds.map fun s =>
        if pyLower (extract_from_tag s p.begin_marker p.end_marker) ∈ c0 :: rest
        then pyLower (extract_from_tag s p.begin_marker p.end_marker) else c0))
    ∧ (p.classes = none →
      _extract_preds p preds = some (preds.map fun s =>
        pyLower (extract_from_tag s p.begin_marker p.end_marker))) := by
  constructor
  · intro c0 rest hc
    exact mapM_option_eq_map _ _ preds fun s _ => extractOne_closed p c0 rest hc s
  · intro hc
    exact mapM_option_eq_map _ _ preds fun s _ => extractOne_open p hc s

/-- C1 witness at the spec's examples: a member value is kept after
lowercasing, a marker-less raw output falls back to the first class. -/
theorem C1_per_item_output_witness :
    _extract_preds pClosed ["<final_answer>Positive</final_answer>", "garbage"]
      = some ["positive", "negative"] := by
  have h := (C1_per_item_output pClosed
    ["<final_answer>Positive</final_answer>", "garbage"]).1 "negative" ["positive"] rfl
  rw [h]
  rfl

/-- C2: closed-vocabulary invariant: for any predictor built by `__init__`
with a non-empty class set, every label `_extract_preds` returns is a member
of that class set. -/
theorem C2_closed_vocabulary (cs : List String) (bm em : String)
    (p : MarkerBasedPredictor) (hcs : cs ≠ [])
    (hinit : init (some cs) bm em = Except.ok p) (preds : List String) :
    ∃ res, _extract_preds p preds = some res ∧ ∀ l ∈ res, l ∈ cs := by
  obtain ⟨hc, -, -⟩ := init_ok_fields (some cs) bm em p hinit
  cases cs with
  | nil => exact absurd rfl hcs
  | cons c0 rest =>
    refine ⟨preds.map fun s =>
      if pyLower (extract_from_tag s p.begin_marker p.end_marker) ∈ c0 :: rest
      then pyLower (extract_from_tag s p.begin_marker p.end_marker) else c0,
      mapM_option_eq_map _ _ preds fun s _ => extractOne_closed p c0 rest hc s, ?_⟩
    intro l hl
    obtain ⟨s, -, hs⟩ := List.mem_map.mp hl
    by_cases hv : pyLower (extract_from_tag s p.begin_marker p.end_marker) ∈ c0 :: rest
    · rw [if_pos hv] at hs
      rw [← hs]
      exact hv
    · rw [if_neg hv] at hs
      rw [← hs]
      exact List.mem_cons_self c0 rest

/-- C2 witness on a batch with a member, a non-member and a marker miss. -/
theorem C2_closed_vocabulary_witness :
    ∃ res, _extract_preds pClosed
      ["<final_answer>maybe</final_answer>", "no markers", "<final_answer>NEGATIVE</final_answer>"]
        = some res ∧ ∀ l ∈ res, l ∈ (["negative", "positive"] : List String) :=
  C2_closed_vocabulary ["negative", "positive"] "<final_answer>" "</final_answer>"
    pClosed (by simp) rfl
    ["<final_answer>maybe</final_answer>", "no markers", "<final_answer>NEGATIVE</final_answer>"]

/-- C3: positional correspondence: a returned batch has the input's length
and the label at position `i` is produced by the per-item loop body applied
to the raw output at position `i` alone. -/
theorem C3_positional_correspondence (p : MarkerBasedPredictor)
    (preds res : List String) (h : _extract_preds p preds = some res) :
    res.length = preds.length ∧
    ∀ (i : Nat) (hi : i < preds.length) (hr : i < res.length),
      extractOne p (preds.get ⟨i, hi⟩) = some (res.get ⟨i, hr⟩) :=
  mapM_option_some_spec (extractOne p) preds res h

/-- C3 witness on a concrete two-item batch. -/
theorem C3_positional_correspondence_witness :
    (["negative", "positive"] : List String).length =
      (["garbage", "<final_answer>positive</final_answer>"] : List String).length ∧
    ∀ (i : Nat)
      (hi : i < (["garbage", "<final_answer>positive</final_answer>"] : List String).length)
      (hr : i < (["negative", "positive"] : List String).length),
      extractOne pClosed
          ((["garbage", "<final_answer>positive</final_answer>"] : List String).get ⟨i, hi⟩)
        = some ((["negative", "positive"] : List String).get ⟨i, hr⟩) :=
  C3_positional_correspondence pClosed
    ["garbage", "<final_answer>positive</final_answer>"] ["negative", "positive"] rfl

/-- C4: construction with a class set containing a non-lowercase entry (one
with an uppercase character) fails at once with the configuration error
inside `__init__`, before any prediction can run. -/
theorem C4_construction_rejects_uppercase (cs : List String) (bm em : String)
    (h : ∃ c ∈ cs, ∃ ch ∈ c.data, ch.isUpper = true) :
    init (some cs) bm em = Except.error "Class labels should be lowercase." := by
  obtain ⟨c, hc, ch, hch, hu⟩ := h
  exact init_error_of_not_islower cs bm em c hc (pyIslower_eq_false_of_upper c ch hch hu)

/-- C4 witness at the spec's example class list. -/
theorem C4_construction_rejects_uppercase_witness :
    init (some ["Positive", "negative"]) "<final_answer>" "</final_answer>"
      = Except.error "Class labels should be lowercase." :=
  C4_construction_rejects_uppercase ["Positive", "negative"]
    "<final_answer>" "</final_answer>"
    ⟨"Positive", by simp, 'P', by decide, by decide⟩

/-- C5: what the code actually does with an empty class list: `__init__`
succeeds because the lowercase assertion is vacuously true over zero
entries, and the first prediction call then dies on the `self.classes[0]`
index access (modelled as `none`). -/
theorem C5_empty_classes_accepted_then_index_error :
    (init (some ([] : List String)) "<final_answer>" "</final_answer>").map
      (fun p => _extract_preds p ["no markers here"]) = Except.ok none := rfl

/-- C6: with a valid configuration (no class set, or a non-empty one) and
the total extraction primitive, `_extract_preds` never raises: every batch,
malformed items included, yields a result. -/
theorem C6_no_error_when_validly_configured (classes : Option (List String))
    (bm em : String) (p : MarkerBasedPredictor)
    (hvalid : classes = none ∨ ∃ c0 rest, classes = some (c0 :: rest))
    (hinit : init classes bm em = Except.ok p) (preds : List String) :
    (_extract_preds p preds).isSome := by
  obtain ⟨hc, -, -⟩ := init_ok_fields classes bm em p hinit
  refine mapM_option_isSome (extractOne p) preds fun s _ => extractOne_isSome p ?_ s
  rw [hc]
  exact hvalid

/-- C6 witness on a batch of malformed and empty raw outputs. -/
theorem C6_no_error_when_validly_configured_witness :
    (_extract_preds pClosed ["garbage", "", "<final_answer>maybe</final_answer>"]).isSome :=
  C6_no_error_when_validly_configured (some ["negative", "positive"])
    "<final_answer>" "</final_answer>" pClosed
    (Or.inr ⟨"negative", ["positive"], rfl⟩) rfl
    ["garbage", "", "<final_answer>maybe</final_answer>"]

/-- C7: normalization is idempotent: a string that is already lowercase and
already a member of the class set is returned unchanged by the
lowercase-then-fallback step. -/
theorem C7_normalize_idempotent (cs : List String) (s : String)
    (h1 : pyLower s = s) (h2 : s ∈ cs) : normalizeLabel cs s = some s := by
  unfold normalizeLabel
  rw [h1]
  simp [h2]

/-- C7 witness at an already-normalized member label. -/
theorem C7_normalize_idempotent_witness :
    normalizeLabel ["negative", "positive"] "positive" = some "positive" :=
  C7_normalize_idempotent ["negative", "positive"] "positive" rfl (by simp)

/-- C8: frame property: running the body of `_extract_preds` as a state
transformer leaves every `self` field (`classes`, `begin_marker`,
`end_marker`, `extraction_description`) unchanged, and its only observable
is the returned `result`, which coincides with the pure `_extract_preds`;
repeated calls on the same input therefore agree. -/
theorem C8_stateless_frame (p : MarkerBasedPredictor) (preds : List String)
    (st : MethodState) (h : runBody p preds = some st) :
    st.classes = p.classes ∧ st.begin_marker = p.begin_marker ∧
    st.end_marker = p.end_marker ∧
    st.extraction_description = p.extraction_description ∧
    _extract_preds p preds = some st.result := by
  obtain ⟨hfr, tail, hres, hmap⟩ := foldlM_loopStep_spec preds (initialState p) st h
  have h1 : stPred (initialState p) = p := rfl
  rw [h1] at hfr hmap
  have h2 : st.result = tail := by simpa [initialState] using hres
  exact ⟨congrArg MarkerBasedPredictor.classes hfr,
    congrArg MarkerBasedPredictor.begin_marker hfr,
    congrArg MarkerBasedPredictor.end_marker hfr,
    congrArg MarkerBasedPredictor.extraction_description hfr,
    by rw [h2]; exact hmap⟩

/-- C8 witness: the concrete post-state of a one-item call keeps every
field of `pClosed` and carries exactly the returned labels. -/
theorem C8_stateless_frame_witness :
    stClosedGarbage.classes = pClosed.classes ∧
    stClosedGarbage.begin_marker = pClosed.begin_marker ∧
    stClosedGarbage.end_marker = pClosed.end_marker ∧
    stClosedGarbage.extraction_description = pClosed.extraction_description ∧
    _extract_preds pClosed ["garbage"] = some stClosedGarbage.result :=
  C8_stateless_frame pClosed ["garbage"] stClosedGarbage rfl

/-- C9: the construction-time check is strictly stricter than "contains no
uppercase letter": an entry with no cased character at all (digits, the
empty string) also fails `str.islower` and is rejected. -/
theorem C9_rejects_uncased_entries (cs : List String) (bm em : String)
    (c : String) (hc : c ∈ cs) (h : ∀ ch ∈ c.data, isCased ch = false) :
    init (some cs) bm em = Except.error "Class labels should be lowercase." :=
  init_error_of_not_islower cs bm em c hc (pyIslower_eq_false_of_uncased c h)

/-- C9 witness: the all-digit entry `"123"` has no uppercase letter yet is
rejected. -/
theorem C9_rejects_uncased_entries_witness :
    init (some ["123", "negative"]) "<final_answer>" "</final_answer>"
      = Except.error "Class labels should be lowercase." :=
  C9_rejects_uncased_entries ["123", "negative"] "<final_answer>" "</final_answer>"
    "123" (by simp) (by decide)

/-- C10: membership is exact string equality with no trimming: whenever the
lowercased extracted span is not literally one of the configured classes,
the loop body substitutes the first class. -/
theorem C10_exact_membership_fallback (p : MarkerBasedPredictor) (c0 : String)
    (rest : List String) (hc : p.classes = some (c0 :: rest)) (raw : String)
    (hnm : pyLower (extract_from_tag raw p.begin_marker p.end_marker) ∉ c0 :: rest) :
    extractOne p raw = some c0 := by
  rw [extractOne_closed p c0 rest hc raw, if_neg hnm]

/-- C10 witness: a span differing from the class `"positive"` only by
surrounding whitespace is a non-member and falls back to `"negative"`. -/
theorem C10_exact_membership_fallback_witness :
    extractOne pClosed "<final_answer> positive </final_answer>" = some "negative" :=
  C10_exact_membership_fallback pClosed "negative" ["positive"] rfl
    "<final_answer> positive </final_answer>" (by decide)

end Promptolution
